import Mathlib

/-
Verification development for the policy-enforcing gateway (backend/app).
The Python sources are shallowly embedded: dictionaries become ordered
association lists, JSON values become an inductive type, machine floats for
amounts are modelled as rationals, clock readings are passed as explicit
integer parameters, and code that can raise a Python exception is modelled
in the Except monad. Source locations are cited on each definition.
-/

namespace Argus

/- JSON value as produced by parsing a request body. Python preserves the
insertion order of object keys, so nested objects are ordered sequences of
key-value entries and the top-level request dictionary is an ordered
association list. Numbers are modelled as rationals (covering Python ints
exactly; binary floating point is out of scope). -/
mutual
inductive JValue where
  | null : JValue
  | jb : Bool → JValue
  | jn : ℚ → JValue
  | js : String → JValue
  | jarr : JArr → JValue
  | jobj : JObj → JValue

inductive JArr where
  | anil : JArr
  | acons : JValue → JArr → JArr

inductive JObj where
  | onil : JObj
  | ocons : String → JValue → JObj → JObj
end

/-- Rendering of a JSON number, exact for integral values (Python ints). -/
def ratStr (q : ℚ) : String := if q.den = 1 then toString q.num else toString q

/- Model of orjson.dumps with default options (gateway.py line 31,
loader.py line 194): compact separators and keys serialized in dictionary
insertion order, since OPT_SORT_KEYS is not passed. String escaping is not
modelled; the inputs considered contain no characters needing escapes. -/
mutual
def dumpsVal : JValue → String
  | .null => "null"
  | .jb true => "true"
  | .jb false => "false"
  | .jn q => ratStr q
  | .js s => "\x22" ++ s ++ "\x22"
  | .jarr a => "[" ++ dumpsArr a ++ "]"
  | .jobj o => "\x7b" ++ dumpsObj o ++ "\x7d"

def dumpsArr : JArr → String
  | .anil => ""
  | .acons v .anil => dumpsVal v
  | .acons v rest => dumpsVal v ++ "," ++ dumpsArr rest

def dumpsObj : JObj → String
  | .onil => ""
  | .ocons k v .onil => "\x22" ++ k ++ "\x22:" ++ dumpsVal v
  | .ocons k v rest => "\x22" ++ k ++ "\x22:" ++ dumpsVal v ++ "," ++ dumpsObj rest
end

/-- Serialization of the top-level request dictionary, the value that
orjson.dumps receives in the code. -/
def dumps (params : List (String × JValue)) : String :=
  "\x7b" ++ String.intercalate ","
    (params.map (fun kv => "\x22" ++ kv.1 ++ "\x22:" ++ dumpsVal kv.2)) ++ "\x7d"

/-- Python str() rendering of a value, used inside denial reason messages. -/
def pyStr : JValue → String
  | .null => "None"
  | .jb true => "True"
  | .jb false => "False"
  | .jn q => ratStr q
  | .js s => s
  | v => dumpsVal v

/-- The 2 to the 32 modulus for 32-bit words. -/
def M32 : ℕ := 4294967296

/-- Right rotation of a 32-bit word. -/
def rotr (x n : ℕ) : ℕ := ((x >>> n) ||| (x <<< (32 - n))) % M32

def bigSigma0 (x : ℕ) : ℕ := rotr x 2 ^^^ rotr x 13 ^^^ rotr x 22
def bigSigma1 (x : ℕ) : ℕ := rotr x 6 ^^^ rotr x 11 ^^^ rotr x 25
def smallSigma0 (x : ℕ) : ℕ := rotr x 7 ^^^ rotr x 18 ^^^ (x >>> 3)
def smallSigma1 (x : ℕ) : ℕ := rotr x 17 ^^^ rotr x 19 ^^^ (x >>> 10)
def chF (x y z : ℕ) : ℕ := (x &&& y) ^^^ ((x ^^^ 4294967295) &&& z)
def majF (x y z : ℕ) : ℕ := (x &&& y) ^^^ (x &&& z) ^^^ (y &&& z)

/-- SHA-256 round constants (FIPS 180-4), for the hashlib.sha256 model. -/
def K64 : List ℕ :=
  [1116352408, 1899447441, 3049323471, 3921009573, 961987163, 1508970993,
   2453635748, 2870763221, 3624381080, 310598401, 607225278, 1426881987,
   1925078388, 2162078206, 2614888103, 3248222580, 3835390401, 4022224774,
   264347078, 604807628, 770255983, 1249150122, 1555081692, 1996064986,
   2554220882, 2821834349, 2952996808, 3210313671, 3336571891, 3584528711,
   113926993, 338241895, 666307205, 773529912, 1294757372, 1396182291,
   1695183700, 1986661051, 2177026350, 2456956037, 2730485921, 2820302411,
   3259730800, 3345764771, 3516065817, 3600352804, 4094571909, 275423344,
   430227734, 506948616, 659060556, 883997877, 958139571, 1322822218,
   1537002063, 1747873779, 1955562222, 2024104815, 2227730452, 2361852424,
   2428436474, 2756734187, 3204031479, 3329325298]

/-- Big-endian byte rendering of a natural number on a given byte count. -/
def beBytes : ℕ → ℕ → List ℕ
  | 0, _ => []
  | c+1, n => ((n >>> (8*c)) &&& 0xFF) :: beBytes c n

/-- SHA-256 message padding. -/
def sha256Pad (msg : List ℕ) : List ℕ :=
  let L := msg.length
  let k := (119 - L % 64) % 64
  msg ++ [0x80] ++ List.replicate k 0 ++ beBytes 8 (8 * L)

/-- Packs bytes into big-endian 32-bit words. -/
def bytesToWords : List ℕ → List ℕ
  | b0 :: b1 :: b2 :: b3 :: rest =>
      ((((((b0 <<< 8) ||| b1) <<< 8) ||| b2) <<< 8) ||| b3) :: bytesToWords rest
  | _ => []

/-- Extends the 16-word message schedule by the given number of words. -/
def extendW : ℕ → List ℕ → List ℕ
  | 0, w => w
  | n+1, w =>
    let L := w.length
    let wi := (smallSigma1 (w.getD (L - 2) 0) + w.getD (L - 7) 0 +
               smallSigma0 (w.getD (L - 15) 0) + w.getD (L - 16) 0) % M32
    extendW n (w ++ [wi])

/-- SHA-256 working state. -/
structure Hash8 where
  a : ℕ
  b : ℕ
  c : ℕ
  d : ℕ
  e : ℕ
  f : ℕ
  g : ℕ
  h : ℕ

/-- SHA-256 initial hash value. -/
def initH : Hash8 :=
  ⟨1779033703, 3144134277, 1013904242, 2773480762,
   1359893119, 2600822924, 528734635, 1541459225⟩

/-- One SHA-256 compression round. -/
def compressWord (st : Hash8) (ki wi : ℕ) : Hash8 :=
  let t1 := (st.h + bigSigma1 st.e + chF st.e st.f st.g + ki + wi) % M32
  let t2 := (bigSigma0 st.a + majF st.a st.b st.c) % M32
  ⟨(t1 + t2) % M32, st.a, st.b, st.c, (st.d + t1) % M32, st.e, st.f, st.g⟩

/-- Processes one 64-byte block. -/
def compressBlock (st : Hash8) (block : List ℕ) : Hash8 :=
  let w := extendW 48 (bytesToWords block)
  let fin := (List.zip K64 w).foldl (fun s p => compressWord s p.1 p.2) st
  ⟨(st.a + fin.a) % M32, (st.b + fin.b) % M32, (st.c + fin.c) % M32, (st.d + fin.d) % M32,
   (st.e + fin.e) % M32, (st.f + fin.f) % M32, (st.g + fin.g) % M32, (st.h + fin.h) % M32⟩

/-- Splits a byte list into 64-byte blocks; the first argument is fuel,
always called with the length of the list. -/
def chunk64 : ℕ → List ℕ → List (List ℕ)
  | 0, _ => []
  | fuel+1, l =>
    match l with
    | [] => []
    | _ => l.take 64 :: chunk64 fuel (l.drop 64)

/-- SHA-256 digest of a byte sequence, as eight 32-bit words. -/
def sha256Words (msg : List ℕ) : List ℕ :=
  let padded := sha256Pad msg
  let fin := (chunk64 padded.length padded).foldl compressBlock initH
  [fin.a, fin.b, fin.c, fin.d, fin.e, fin.f, fin.g, fin.h]

/-- ASCII code of a lowercase hex digit. -/
def hexDigitCode (n : ℕ) : ℕ := if n < 10 then 48 + n else 87 + n

/-- ASCII codes of the 8 hex digits of a 32-bit word. -/
def hexWordCodes (n : ℕ) : List ℕ :=
  (List.range 8).map (fun i => hexDigitCode ((n >>> (4*(7-i))) &&& 15))

/-- ASCII codes of the 64-character lowercase hex digest. -/
def sha256HexCodes (msg : List ℕ) : List ℕ :=
  ((sha256Words msg).map hexWordCodes).flatten

def codesToString (codes : List ℕ) : String := String.mk (codes.map Char.ofNat)

/-- Hex-encoded SHA-256 digest, the hexdigest() of hashlib. -/
def sha256Hex (msg : List ℕ) : String := codesToString (sha256HexCodes msg)

/-- Bytes of a string; exact for the ASCII inputs considered here. -/
def strBytes (s : String) : List ℕ := s.toList.map Char.toNat

/-- Character codes of a string, used to compare computed strings. -/
def strCodes (s : String) : List ℕ := s.toList.map Char.toNat

/-- Model of the params hash computed in gateway.py lines 28 to 32 and
loader.py line 194: hex SHA-256 of the orjson serialization of the request
parameters. -/
def hashParams (params : List (String × JValue)) : String :=
  sha256Hex (strBytes (dumps params))

/-- Conditions of a policy rule, models.py lines 5 to 13. -/
structure PolicyConditions where
  max_amount : Option ℚ
  currencies : Option (List String)
  folder_prefix : Option String
  max_chain_depth : Option ℤ
  forbidden_ancestors : Option (List String)
  required_ancestors : Option (List String)
deriving DecidableEq

/-- A single policy rule, models.py lines 61 to 66. -/
structure PolicyRule where
  tool : String
  actions : List String
  conditions : Option PolicyConditions
  requires_approval : Bool
deriving DecidableEq

/-- Agent configuration, models.py lines 69 to 72. -/
structure Agent where
  id : String
  allow : List PolicyRule
deriving DecidableEq

/-- Complete policy document, models.py lines 75 to 78. -/
structure PolicyDocument where
  version : ℕ
  agents : List Agent
deriving DecidableEq

/-- A policy decision record, models.py lines 81 to 95. -/
structure Decision where
  timestamp : String
  agent_id : String
  parent_agent : Option String
  call_chain : List String
  tool : String
  action : String
  params_hash : String
  decision : String
  reason : Option String
  policy_version : ℕ
  latency_ms : ℚ
  trace_id : Option String
  approval_id : Option String

/-- A pending approval request, models.py lines 98 to 111. Timestamps are
modelled as integer instants. -/
structure PendingApproval where
  id : String
  timestamp : ℤ
  agent_id : String
  parent_agent : Option String
  call_chain : List String
  tool : String
  action : String
  params : List (String × JValue)
  reason : String
  expires_at : ℤ
  approved_by : Option String
  approved_at : Option ℤ

/-- Model of params.get(key) on the request parameter dictionary. -/
def jget (params : List (String × JValue)) (k : String) : Option JValue :=
  (params.find? (fun kv => kv.1 == k)).map (fun kv => kv.2)

/-- Python repr rendering of a list of strings, used in the currency
denial reason. -/
def pyReprStrList (cs : List String) : String :=
  "[" ++ String.intercalate ", " (cs.map (fun s => "\x27" ++ s ++ "\x27")) ++ "]"

/-- The max_amount check of PolicyConditions.evaluate, models.py lines 26
to 29. Returns none when the check passes, a denial reason when it fails,
and an error when the Python comparison would raise a TypeError: the
comparison amount greater-than max_amount is only defined when amount is a
number or a bool (Python bools compare as 0 and 1). A missing key and an
explicit null both make params.get return None, skipping the check. -/
def checkAmountCond (ma : Option ℚ) (params : List (String × JValue)) :
    Except String (Option String) :=
  match ma with
  | none => .ok none
  | some m =>
    match jget params "amount" with
    | none => .ok none
    | some .null => .ok none
    | some (.jb b) =>
        if m < (if b then (1 : ℚ) else 0) then
          .ok (some ("Amount " ++ pyStr (.jb b) ++ " exceeds max_amount " ++ ratStr m))
        else .ok none
    | some (.jn q) =>
        if m < q then
          .ok (some ("Amount " ++ ratStr q ++ " exceeds max_amount " ++ ratStr m))
        else .ok none
    | some _ => .error "TypeError: unsupported comparison for amount"

/-- The currencies check, models.py lines 31 to 34. Python membership in a
list of strings never raises; a non-string value is simply not a member. -/
def checkCurrencyCond (cur : Option (List String)) (params : List (String × JValue)) :
    Except String (Option String) :=
  match cur with
  | none => .ok none
  | some cs =>
    match jget params "currency" with
    | none => .ok none
    | some .null => .ok none
    | some v =>
      if (match v with | .js s => cs.contains s | _ => false) then .ok none
      else .ok (some ("Currency " ++ pyStr v ++ " not in allowed currencies " ++ pyReprStrList cs))

/-- The folder_prefix check, models.py lines 36 to 39. Calling startswith
on a non-string raises an AttributeError in Python. -/
def checkPathCond (fp : Option String) (params : List (String × JValue)) :
    Except String (Option String) :=
  match fp with
  | none => .ok none
  | some pre =>
    match jget params "path" with
    | none => .ok none
    | some .null => .ok none
    | some (.js p) =>
        if p.startsWith pre then .ok none
        else .ok (some ("Path " ++ p ++ " does not start with allowed prefix " ++ pre))
    | some _ => .error "AttributeError: value has no attribute startswith"

/-- The max_chain_depth check, models.py lines 42 to 46, applied only when
a call chain was passed. -/
def checkDepthCond (mcd : Option ℤ) (call_chain : Option (List String)) :
    Except String (Option String) :=
  match call_chain, mcd with
  | some ch, some d =>
      if d < (ch.length : ℤ) then
        .ok (some ("Call chain depth " ++ toString ch.length ++
                   " exceeds max_chain_depth " ++ toString d))
      else .ok none
  | _, _ => .ok none

/-- The forbidden_ancestors check, models.py lines 48 to 51: the reason
names the first forbidden ancestor present in the chain. -/
def checkForbiddenCond (fa : Option (List String)) (call_chain : Option (List String)) :
    Except String (Option String) :=
  match call_chain, fa with
  | some ch, some fs =>
    match fs.find? (fun f => ch.contains f) with
    | some f => .ok (some ("Forbidden ancestor \x27" ++ f ++ "\x27 found in call chain"))
    | none => .ok none
  | _, _ => .ok none

/-- The required_ancestors check, models.py lines 53 to 56: the reason
names the first required ancestor missing from the chain. -/
def checkRequiredCond (ra : Option (List String)) (call_chain : Option (List String)) :
    Except String (Option String) :=
  match call_chain, ra with
  | some ch, some rs =>
    match rs.find? (fun r => !(ch.contains r)) with
    | some r => .ok (some ("Required ancestor \x27" ++ r ++ "\x27 not found in call chain"))
    | none => .ok none
  | _, _ => .ok none

/-- Sequencing of one early-return check block of PolicyConditions.evaluate:
a raised exception propagates, a failed check returns the pair of False and
its reason, a passed check falls through to the rest of the body. -/
def condStep (check : Except String (Option String))
    (rest : Unit → Except String (Bool × Option String)) :
    Except String (Bool × Option String) :=
  match check with
  | .error e => .error e
  | .ok (some r) => .ok (false, some r)
  | .ok none => rest ()

/-- PolicyConditions.evaluate, models.py lines 15 to 58: the check blocks
in source order, each returning early on failure, with the three chain
checks guarded by the call chain being present, and the final return of
the pair of True and no reason. -/
def condEvaluate (c : PolicyConditions) (params : List (String × JValue))
    (call_chain : Option (List String)) : Except String (Bool × Option String) :=
  match c with
  | ⟨ma, cur, fp, mcd, fa, ra⟩ =>
    condStep (checkAmountCond ma params) fun _ =>
    condStep (checkCurrencyCond cur params) fun _ =>
    condStep (checkPathCond fp params) fun _ =>
    condStep (checkDepthCond mcd call_chain) fun _ =>
    condStep (checkForbiddenCond fa call_chain) fun _ =>
    condStep (checkRequiredCond ra call_chain) fun _ =>
    .ok (true, none)

/-- Specification-side combinator: the first failing check in a list
decides the outcome, later checks are not consulted. -/
def firstFailure : List (Except String (Option String)) →
    Except String (Bool × Option String)
  | [] => .ok (true, none)
  | e :: rest =>
    match e with
    | .error m => .error m
    | .ok (some r) => .ok (false, some r)
    | .ok none => firstFailure rest

/-- Specification-side definition following the words of the claim: the
six condition checks in the fixed order max_amount, currencies,
folder_prefix, max_chain_depth, forbidden_ancestors, required_ancestors. -/
def condSpecOrdered (c : PolicyConditions) (params : List (String × JValue))
    (chain : List String) : Except String (Bool × Option String) :=
  firstFailure
    [checkAmountCond c.max_amount params,
     checkCurrencyCond c.currencies params,
     checkPathCond c.folder_prefix params,
     checkDepthCond c.max_chain_depth (some chain),
     checkForbiddenCond c.forbidden_ancestors (some chain),
     checkRequiredCond c.required_ancestors (some chain)]

/-- Numeric view of the amount parameter as the Python comparison sees it:
a bool compares as 0 or 1, a number as itself, anything else does not
compare. -/
def jgetAmount (params : List (String × JValue)) : Option ℚ :=
  match jget params "amount" with
  | some (.jn q) => some q
  | some (.jb b) => some (if b then 1 else 0)
  | _ => none

/-- Agent lookup inside one document: the first agent whose id matches,
loader.py lines 137 to 140. -/
def findAgentIn (agents : List Agent) (aid : String) : Option Agent :=
  agents.find? (fun a => a.id == aid)

/-- Agent lookup across all policy documents in file order, with the outer
loop breaking at the first document containing the agent, loader.py lines
134 to 142. -/
def findAgent : List (String × PolicyDocument) → String → Option Agent
  | [], _ => none
  | (_, d) :: rest, aid =>
    match findAgentIn d.agents aid with
    | some a => some a
    | none => findAgent rest aid

/-- Outcome of one request evaluation: the Python function either returns
the triple of decision, reason and optional approval id, or raises. -/
abbrev EvalResult := Except String (String × String × Option String)

/-- Processing of the selected rule, loader.py lines 153 to 178: evaluate
its conditions if any, deny on a failed condition with the condition
reason, otherwise mint a pending approval when the rule requires one, and
otherwise allow. The fresh approval id is passed in explicitly to model
the uuid4 call. -/
def applyRule (params : List (String × JValue)) (call_chain : List String)
    (freshId : String) (r : PolicyRule) : EvalResult :=
  match r.conditions with
  | some c =>
    match condEvaluate c params (some call_chain) with
    | .error e => .error e
    | .ok (allowed, reason) =>
      if allowed then
        if r.requires_approval then
          .ok ("pending_approval", "Action requires approval (ID: " ++ freshId ++ ")",
               some freshId)
        else .ok ("allow", "Allowed by policy", none)
      else .ok ("deny", reason.getD "", none)
  | none =>
    if r.requires_approval then
      .ok ("pending_approval", "Action requires approval (ID: " ++ freshId ++ ")", some freshId)
    else .ok ("allow", "Allowed by policy", none)

/-- The rule scan of PolicyEngine.evaluate, loader.py lines 152 to 184:
rules are visited in declaration order, the first whose tool matches and
whose action list contains the requested action is processed, and if none
matches the agent is denied. -/
def evalRules (agent_id tool action : String) (params : List (String × JValue))
    (call_chain : List String) (freshId : String) : List PolicyRule → EvalResult
  | [] =>
    .ok ("deny", "Agent " ++ agent_id ++ " not allowed to perform " ++ tool ++ "/" ++ action,
         none)
  | r :: rest =>
    if r.tool == tool && r.actions.contains action then
      applyRule params call_chain freshId r
    else evalRules agent_id tool action params call_chain freshId rest

/-- Specification-side definition following the words of the claim: select
the first rule whose tool equals the requested tool and whose action set
contains the requested action, consider no later rules, and deny when no
rule matches. -/
def applySelected (agent_id tool action : String) (params : List (String × JValue))
    (call_chain : List String) (freshId : String) : Option PolicyRule → EvalResult
  | none =>
    .ok ("deny", "Agent " ++ agent_id ++ " not allowed to perform " ++ tool ++ "/" ++ action,
         none)
  | some r => applyRule params call_chain freshId r

/-- PolicyEngine.evaluate, loader.py lines 117 to 184, decision part: the
call chain is the parent agent alone when given, the agent is looked up
across all documents, and the rule scan decides. Decision recording is
modelled separately by record_decision. -/
def evaluate (policies : List (String × PolicyDocument)) (agent_id tool action : String)
    (params : List (String × JValue)) (parent_agent : Option String)
    (freshId : String) : EvalResult :=
  let call_chain := match parent_agent with | some p => [p] | none => []
  match findAgent policies agent_id with
  | none => .ok ("deny", "Agent " ++ agent_id ++ " not found in policies", none)
  | some ag => evalRules agent_id tool action params call_chain freshId ag.allow

/-- PolicyEngine._record_decision, loader.py lines 186 to 215: build the
record with the params hash, append it, and drop the oldest record once
the list exceeds 50 entries. -/
def record_decision (log : List Decision) (agent_id : String) (parent_agent : Option String)
    (call_chain : List String) (tool action : String) (params : List (String × JValue))
    (decision reason : String) (trace_id : Option String) (latency_ms : ℚ)
    (approval_id : Option String) (policy_version : ℕ) (timestamp : String) :
    List Decision :=
  let d : Decision :=
    ⟨timestamp, agent_id, parent_agent, call_chain, tool, action, hashParams params,
     decision, some reason, policy_version, latency_ms, trace_id, approval_id⟩
  let l := log ++ [d]
  if 50 < l.length then l.tail else l

/-- Python slice semantics of l from index i to the end: a negative start
counts from the end and clamps at zero, a nonnegative start clamps at the
length. -/
def pySliceSuffix {α : Type} (l : List α) (i : ℤ) : List α :=
  if i < 0 then l.drop (((l.length : ℤ) + i).toNat)
  else l.drop i.toNat

/-- PolicyEngine.get_recent_decisions, loader.py lines 265 to 268: the
Python slice of the decisions list from index minus limit. -/
def get_recent_decisions (log : List Decision) (limit : ℤ) : List Decision :=
  pySliceSuffix log (-limit)

/-- Outcome of loading one policy file inside reload_policies, loader.py
lines 92 to 107: yaml parsing may yield None for an empty file, the
pydantic validation may succeed with a document, or an exception is caught
and recorded as an error message. -/
inductive LoadOutcome where
  | emptyFile : LoadOutcome
  | loaded : PolicyDocument → LoadOutcome
  | failed : String → LoadOutcome

/-- The loop body of reload_policies over the directory listing: collects
the successfully validated documents and the error messages, both in file
order. -/
def collectPolicies : List (String × LoadOutcome) →
    List (String × PolicyDocument) × List String
  | [] => ([], [])
  | (nm, o) :: rest =>
    let acc := collectPolicies rest
    match o with
    | .emptyFile => acc
    | .loaded d => ((nm, d) :: acc.1, acc.2)
    | .failed m => (acc.1, ("Failed to load policy file " ++ nm ++ ": " ++ m) :: acc.2)

/-- State of the policy engine relevant to reloads: the installed policy
set and the version counter. -/
structure EngineState where
  policies : List (String × PolicyDocument)
  version : ℕ

/-- PolicyEngine.reload_policies, loader.py lines 86 to 115: install the
collected set and advance the version unless the set is empty while load
errors occurred, in which case the previous state is kept unchanged. -/
def reload_policies (s : EngineState) (files : List (String × LoadOutcome)) : EngineState :=
  let acc := collectPolicies files
  match acc.1, acc.2 with
  | [], _ :: _ => s
  | _, _ => { policies := acc.1, version := s.version + 1 }

/-- Dictionary lookup on the pending approvals map, which preserves
insertion order like a Python dict. -/
def assocGet : List (String × PendingApproval) → String → Option PendingApproval
  | [], _ => none
  | p :: rest, k => if p.1 == k then some p.2 else assocGet rest k

/-- In-place value update of a dict entry, keeping its position. -/
def assocSet (m : List (String × PendingApproval)) (k : String) (v : PendingApproval) :
    List (String × PendingApproval) :=
  m.map (fun p => if p.1 == k then (k, v) else p)

/-- Deletion of a dict entry. -/
def assocDel (m : List (String × PendingApproval)) (k : String) :
    List (String × PendingApproval) :=
  m.filter (fun p => p.1 != k)

/-- PolicyEngine.approve_request, loader.py lines 240 to 258: an absent id
fails; an entry past its expiry is deleted and fails; otherwise the entry
is stamped in place with the approver and the current instant and the call
succeeds. The current instant is passed explicitly to model the clock. -/
def approve_request (approvals : List (String × PendingApproval)) (now : ℤ)
    (approval_id approved_by : String) : List (String × PendingApproval) × Bool :=
  match assocGet approvals approval_id with
  | none => (approvals, false)
  | some ap =>
    if ap.expires_at < now then (assocDel approvals approval_id, false)
    else
      (assocSet approvals approval_id
        { ap with approved_by := some approved_by, approved_at := some now }, true)

/-- The adapter registry ADAPTERS of gateway.py lines 20 to 25, as the set
of tool and action pairs it maps. -/
def adapterDefined (tool action : String) : Bool :=
  (tool == "payments" && (action == "create" || action == "refund")) ||
  (tool == "files" && (action == "read" || action == "write"))

/-- Result of one call to the approval redemption endpoint: the updated
ledger, the HTTP status, and whether the tool adapter was invoked. -/
structure RedeemResult where
  approvals : List (String × PendingApproval)
  status : ℕ
  dispatched : Bool

/-- The approve_action handler, gateway.py lines 151 to 194: look the entry
up, answer not found when absent, answer gone when approve_request fails,
answer not found when no adapter exists for the stored tool and action, and
otherwise invoke the adapter on the stored parameters. The dispatched flag
records that the adapter was invoked, whatever its own outcome. -/
def approve_action (approvals : List (String × PendingApproval)) (now : ℤ)
    (approval_id approved_by : String) : RedeemResult :=
  match assocGet approvals approval_id with
  | none => ⟨approvals, 404, false⟩
  | some approval =>
    let r := approve_request approvals now approval_id approved_by
    if r.2 = false then ⟨r.1, 410, false⟩
    else if adapterDefined approval.tool approval.action then ⟨r.1, 200, true⟩
    else ⟨r.1, 404, false⟩

/-- Occurrence count of an element in a list of strings. -/
def countOcc (l : List String) (a : String) : ℕ := (l.filter (fun x => x == a)).length

/-- The duplicate-id part of PolicyValidator._validate_business_rules,
validator.py lines 205 to 209. -/
def duplicateIdErrors (d : PolicyDocument) : List String :=
  let ids := d.agents.map (fun a => a.id)
  let dups := (ids.dedup).filter (fun a => 1 < countOcc ids a)
  match dups with
  | [] => []
  | _ => ["Duplicate agent IDs found: " ++ String.intercalate ", " dups]

/-- The overlapping-actions part of _validate_business_rules, validator.py
lines 215 to 227: a dict from tool to the action set of the first rule
that introduced the tool; overlap of a later rule with that stored set is
an error, and the stored set is not updated. -/
def overlapGo (aid : String) : List PolicyRule → List (String × List String) → List String
  | [], _ => []
  | r :: rest, ta =>
    match ta.find? (fun p => p.1 == r.tool) with
    | some p =>
      let ov := p.2.filter (fun a => r.actions.contains a)
      (match ov with
       | [] => []
       | _ => ["Agent " ++ aid ++ ": Overlapping actions " ++ String.intercalate ", " ov ++
               " for tool " ++ r.tool]) ++ overlapGo aid rest ta
    | none => overlapGo aid rest (ta ++ [(r.tool, r.actions)])

/-- The tool-condition compatibility part of _validate_business_rules,
validator.py lines 229 to 248: folder_prefix is rejected on a payments
rule, a nonpositive max_amount is rejected on a payments rule, and
max_amount or currencies are rejected on a files rule. -/
def condCompatErrors (aid : String) (r : PolicyRule) : List String :=
  match r.conditions with
  | none => []
  | some c =>
    if r.tool == "payments" then
      (match c.folder_prefix with
       | some _ => ["Agent " ++ aid ++ ": folder_prefix condition not valid for payments tool"]
       | none => []) ++
      (match c.max_amount with
       | some m => if m ≤ 0 then ["Agent " ++ aid ++ ": max_amount must be positive"] else []
       | none => [])
    else if r.tool == "files" then
      (match c.max_amount with
       | some _ => ["Agent " ++ aid ++ ": max_amount condition not valid for files tool"]
       | none => []) ++
      (match c.currencies with
       | some _ => ["Agent " ++ aid ++ ": currencies condition not valid for files tool"]
       | none => [])
    else []

/-- PolicyValidator._validate_business_rules, validator.py lines 201 to
250: duplicate ids in the file, then per agent the overlap errors followed
by the condition compatibility errors. -/
def businessRuleErrors (d : PolicyDocument) : List String :=
  duplicateIdErrors d ++
  (d.agents.map (fun a => overlapGo a.id a.allow [] ++
    (a.allow.map (condCompatErrors a.id)).flatten)).flatten

/-- Helper of _validate_global_rules: append a filename under an agent id,
creating the entry on first sight, validator.py lines 298 to 302. -/
def addFileFor (acc : List (String × List String)) (aid fn : String) :
    List (String × List String) :=
  if acc.any (fun c => c.1 == aid) then
    acc.map (fun c => if c.1 == aid then (c.1, c.2 ++ [fn]) else c)
  else acc ++ [(aid, [fn])]

/-- PolicyValidator._validate_global_rules, validator.py lines 287 to 308:
an error for every agent id defined in more than one file. -/
def globalDuplicateErrors (policies : List (String × PolicyDocument)) : List String :=
  let all_agent_ids :=
    (policies.map (fun p => p.2.agents.map (fun a => (a.id, p.1)))).flatten
  let counts := all_agent_ids.foldl (fun acc p => addFileFor acc p.1 p.2) []
  (counts.filter (fun c => 1 < c.2.length)).map
    (fun c => "Agent ID \x27" ++ c.1 ++ "\x27 defined in multiple files: " ++
              String.intercalate ", " c.2)

/-- The amount parameter, when present, is a value the Python greater-than
comparison against a number accepts: absent, null, bool or number. -/
def amountComparable (params : List (String × JValue)) : Bool :=
  match jget params "amount" with
  | some (.js _) => false
  | some (.jarr _) => false
  | some (.jobj _) => false
  | _ => true

/-- The path parameter, when present, is a value with a startswith method:
absent, null or string. -/
def pathStringy (params : List (String × JValue)) : Bool :=
  match jget params "path" with
  | some (.jb _) => false
  | some (.jn _) => false
  | some (.jarr _) => false
  | some (.jobj _) => false
  | _ => true

/-- Boolean well-typedness of request parameters with respect to the
condition checks. -/
def wellTypedParams (params : List (String × JValue)) : Bool :=
  amountComparable params && pathStringy params

/-- A live pending approval used in concrete scenarios: created at instant
0, expiring at instant 1000, not yet approved. -/
def samplePending : PendingApproval :=
  ⟨"ap1", 0, "exec", none, [], "payments", "create", [("amount", JValue.jn 5)],
   "Requires manual approval", 1000, none, none⟩

/-- A pending approval that has already been approved by approver prev. -/
def approvedPending : PendingApproval :=
  ⟨"ap2", 0, "exec", none, [], "payments", "create", [],
   "Requires manual approval", 1000, some "prev", some 1⟩

/-- A policy set with one agent whose payments rule carries max_amount. -/
def polTypeErr : PolicyDocument :=
  ⟨1, [⟨"fin", [⟨"payments", ["create"], some ⟨some 100, none, none, none, none, none⟩,
                 false⟩]⟩]⟩

/-- Two documents defining the same agent id in different files. -/
def docDupA : PolicyDocument := ⟨1, [⟨"dup", [⟨"payments", ["create"], none, false⟩]⟩]⟩

def docDupB : PolicyDocument := ⟨1, [⟨"dup", [⟨"files", ["read"], none, false⟩]⟩]⟩

/-- A document whose payments rule carries a folder_prefix condition,
which invariant 3 declares incompatible with a payments-like tool. -/
def docBadCond : PolicyDocument :=
  ⟨1, [⟨"fin", [⟨"payments", ["create"], some ⟨none, none, some "/hr/", none, none, none⟩,
                 false⟩]⟩]⟩

/-- Two parameter dictionaries with the same key-value pairs in different
key orders. -/
def paramsA : List (String × JValue) := [("a", .jn 1), ("b", .jn 2)]

def paramsB : List (String × JValue) := [("b", .jn 2), ("a", .jn 1)]

/-- A decision log holding exactly one record. -/
def logOne : List Decision :=
  record_decision [] "a" none [] "payments" "create" [] "allow" "r" none 0 none 1 "t0"

/-- A condition block carrying only max_amount, and parameters without an
amount, used to instantiate the condition-order theorem. -/
def condMaxOnly : PolicyConditions := ⟨some 100, none, none, none, none, none⟩

def paramsNoAmount : List (String × JValue) := [("x", .jn 1)]

/-- An agent with two rules matching the same tool and action, so that
only first-match semantics give a deterministic outcome. -/
def twoRuleAgent : Agent :=
  ⟨"fin", [⟨"payments", ["create"], none, false⟩, ⟨"payments", ["create"], none, true⟩]⟩

def twoRuleDoc : PolicyDocument := ⟨1, [twoRuleAgent]⟩

/-- Strings with distinct character code sequences are distinct. -/
theorem ne_of_strCodes_ne {s t : String} (h : strCodes s ≠ strCodes t) : s ≠ t :=
  fun he => h (congrArg strCodes he)

/-- A string append whose left part is nonempty is a nonempty string. -/
theorem append_ne_empty (a b : String) (h : a.data ≠ []) : a ++ b ≠ "" := by
  intro he
  apply h
  have h2 : a.data ++ b.data = [] := by
    have h3 := congrArg String.data he
    rwa [String.data_append] at h3
  exact (List.append_eq_nil.mp h2).1

/-- Claim C1: the approval-redemption entry point is claimed to dispatch
the tool adapter at most once per approval id. In the code the approval
entry is neither removed nor marked executed on success, so a second call
to POST approve with the same id passes the same checks and invokes the
adapter again: starting from a ledger holding one live unexpired entry,
two successive redemption calls both answer 200 and both dispatch. -/
theorem approve_action_dispatches_twice :
    (approve_action [("ap1", samplePending)] 1 "ap1" "alice").dispatched = true
    ∧ (approve_action [("ap1", samplePending)] 1 "ap1" "alice").status = 200
    ∧ (approve_action (approve_action [("ap1", samplePending)] 1 "ap1" "alice").approvals
         2 "ap1" "bob").dispatched = true
    ∧ (approve_action (approve_action [("ap1", samplePending)] 1 "ap1" "alice").approvals
         2 "ap1" "bob").status = 200 := by
  refine ⟨rfl, rfl, rfl, rfl⟩

set_option maxRecDepth 40000 in
set_option maxHeartbeats 2000000 in
/-- Claim C2: params_hash is claimed invariant under key reordering. The
code hashes the orjson serialization of the parameter dictionary without
the sort-keys option, and orjson serializes keys in insertion order, so
two dictionaries with the same key-value pairs in different orders are
recorded with different hashes. -/
theorem params_hash_depends_on_key_order :
    paramsB.Perm paramsA
    ∧ (record_decision [] "a1" none [] "payments" "create" paramsA "allow" "ok"
         none 0 none 1 "t0").map (fun d => d.params_hash) = [hashParams paramsA]
    ∧ (record_decision [] "a1" none [] "payments" "create" paramsB "allow" "ok"
         none 0 none 1 "t0").map (fun d => d.params_hash) = [hashParams paramsB]
    ∧ hashParams paramsA ≠ hashParams paramsB := by
  refine ⟨List.Perm.swap ("a", JValue.jn 1) ("b", JValue.jn 2) [], rfl, rfl, ?_⟩
  apply ne_of_strCodes_ne
  decide

/-- Claim C3: a reload whose per-file-valid documents define the same
agent id in two different files is claimed to be rejected with the version
unchanged. The loader never runs the global validation phase: reloading
two files that both define agent dup installs both documents and advances
the version, even though the validator function in the repository flags
exactly this duplicate. -/
theorem reload_installs_duplicate_agent_ids :
    reload_policies ⟨[], 1⟩ [("a.yaml", .loaded docDupA), ("b.yaml", .loaded docDupB)] =
      ⟨[("a.yaml", docDupA), ("b.yaml", docDupB)], 2⟩
    ∧ globalDuplicateErrors [("a.yaml", docDupA), ("b.yaml", docDupB)] ≠ [] := by
  refine ⟨rfl, ?_⟩
  decide

/-- Claim C8: a document carrying a condition incompatible with its rule
tool, here folder_prefix on a payments rule, is claimed to be rejected at
reload. The loader only runs the pydantic shape validation and never the
business-rule validation, so the document is installed and the version
advances, even though the validator function in the repository flags
exactly this incompatibility. -/
theorem reload_installs_incompatible_condition :
    reload_policies ⟨[], 1⟩ [("p.yaml", .loaded docBadCond)] =
      ⟨[("p.yaml", docBadCond)], 2⟩
    ∧ businessRuleErrors docBadCond ≠ [] := by
  refine ⟨rfl, ?_⟩
  decide

/-- Claim C5, counterexample: the evaluator is claimed never to raise, but
when a matched rule carries max_amount and the request carries a string
amount, the Python comparison of a str against a number raises a
TypeError, modelled as an error outcome of the evaluation. -/
theorem evaluate_raises_on_string_amount :
    evaluate [("p.yaml", polTypeErr)] "fin" "payments" "create"
      [("amount", JValue.js "many")] none "fresh" =
    Except.error "TypeError: unsupported comparison for amount" := rfl

/-- Claim C7, counterexample: the claim states the deny reason for an
unknown agent is the string starting with lowercase agent, but the code
capitalizes Agent in both deny reasons. -/
theorem deny_reason_is_capitalized :
    evaluate [] "ghost" "payments" "create" [] none "f" =
      Except.ok ("deny", "Agent ghost not found in policies", none)
    ∧ ("Agent ghost not found in policies" : String) ≠
        "agent ghost not found in policies" := by
  refine ⟨rfl, ?_⟩
  decide

/-- Claim C9, counterexample: recent with limit 0 is claimed to return up
to min 0 50 records, that is none, but the Python slice from index minus
zero is the whole list: on a log holding one record it returns that
record. -/
theorem recent_zero_returns_whole_log :
    get_recent_decisions logOne 0 = logOne ∧ logOne.length = 1 := by
  refine ⟨rfl, rfl⟩

/-- Claim C4: a reload installs the collected set and advances the version
by exactly one whenever the set is non-empty or no load errors occurred,
including when the new set equals the old one; when the set is empty and
errors occurred the state is returned unchanged, so readers keep the prior
policy set and the version. Strict monotonicity across successful installs
follows from the plus-one step. -/
theorem reload_version_semantics (s : EngineState) (files : List (String × LoadOutcome)) :
    ((collectPolicies files).1 ≠ [] ∨ (collectPolicies files).2 = [] →
      reload_policies s files =
        { policies := (collectPolicies files).1, version := s.version + 1 })
    ∧ ((collectPolicies files).1 = [] ∧ (collectPolicies files).2 ≠ [] →
      reload_policies s files = s) := by
  constructor
  · intro hin
    cases hps : (collectPolicies files).1 with
    | nil =>
      cases hes : (collectPolicies files).2 with
      | nil => simp [reload_policies, hps, hes]
      | cons e es =>
        rcases hin with hne | hee
        · exact absurd hps hne
        · rw [hes] at hee
          exact absurd hee (by simp)
    | cons p ps => simp [reload_policies, hps]
  · rintro ⟨hps, hes⟩
    cases hes2 : (collectPolicies files).2 with
    | nil => exact absurd hes2 hes
    | cons e es => simp [reload_policies, hps, hes2]

/-- Witness for the reload semantics: a reload with one loaded document
installs it at version two, and a reload with one failed file and nothing
loaded keeps the state. -/
theorem reload_version_semantics_witness :
    reload_policies ⟨[], 1⟩ [("a.yaml", .loaded docDupA)] =
      { policies := [("a.yaml", docDupA)], version := 2 }
    ∧ reload_policies ⟨[], 1⟩ [("b.yaml", .failed "boom")] = ⟨[], 1⟩ := by
  constructor
  · exact (reload_version_semantics ⟨[], 1⟩ [("a.yaml", .loaded docDupA)]).1 (Or.inr rfl)
  · exact (reload_version_semantics ⟨[], 1⟩ [("b.yaml", .failed "boom")]).2
      ⟨rfl, by decide⟩

/-- A dict update at a present key is observed by a lookup of that key. -/
theorem assocGet_assocSet (m : List (String × PendingApproval)) (k : String)
    (v ap : PendingApproval) (h : assocGet m k = some ap) :
    assocGet (assocSet m k v) k = some v := by
  induction m with
  | nil => exact Option.noConfusion h
  | cons p rest ih =>
    by_cases hp : (p.1 == k) = true
    · simp [assocGet, assocSet, hp]
    · have hp2 : (p.1 == k) = false := by
        cases hb : (p.1 == k) with
        | true => exact absurd hb hp
        | false => rfl
      have e1 : assocGet (p :: rest) k = assocGet rest k := by
        simp [assocGet, hp2]
      have e2 : assocSet (p :: rest) k v = p :: assocSet rest k v := by
        unfold assocSet
        simp only [List.map]
        rw [if_neg hp]
      rw [e1] at h
      rw [e2]
      have e3 : assocGet (p :: assocSet rest k v) k = assocGet (assocSet rest k v) k := by
        simp [assocGet, hp2]
      rw [e3]
      exact ih h

/-- Claim C10: approving a present, unexpired, already-approved entry
returns true and overwrites only the approver and approval-time fields
with the new approver and the current instant; every other field of the
entry is unchanged, and the original approver is not preserved. -/
theorem approve_overwrites_approver (approvals : List (String × PendingApproval))
    (now : ℤ) (aid approver prev : String) (ap : PendingApproval)
    (hget : assocGet approvals aid = some ap)
    (hexp : ¬ (ap.expires_at < now))
    (halready : ap.approved_by = some prev) :
    (approve_request approvals now aid approver).2 = true
    ∧ assocGet (approve_request approvals now aid approver).1 aid =
        some { ap with approved_by := some approver, approved_at := some now } := by
  unfold approve_request
  rw [hget]
  dsimp only
  rw [if_neg hexp]
  exact ⟨rfl, assocGet_assocSet approvals aid _ ap hget⟩

/-- Witness for the overwrite theorem: re-approving the already-approved
entry ap2 stamps the new approver and instant and keeps all other
fields. -/
theorem approve_overwrites_approver_witness :
    (approve_request [("ap2", approvedPending)] 5 "ap2" "mgr").2 = true
    ∧ assocGet (approve_request [("ap2", approvedPending)] 5 "ap2" "mgr").1 "ap2" =
        some { approvedPending with approved_by := some "mgr", approved_at := some 5 } :=
  approve_overwrites_approver [("ap2", approvedPending)] 5 "ap2" "mgr" "prev"
    approvedPending rfl (by decide) rfl

/-- Claim C9, amended: the decision log never exceeds 50 records, an
append at capacity evicts the oldest record and an append below capacity
evicts nothing, and for every positive limit recent returns exactly the
min of limit and the log size most recently appended records as a suffix
in insertion order. The positivity restriction is forced by the
counterexample at limit zero. -/
theorem decision_log_bounds (log : List Decision) (agent_id : String)
    (parent_agent : Option String) (call_chain : List String) (tool action : String)
    (params : List (String × JValue)) (decision reason : String)
    (trace_id : Option String) (latency_ms : ℚ) (approval_id : Option String)
    (policy_version : ℕ) (timestamp : String) (limit : ℤ)
    (hlen : log.length ≤ 50) (hpos : 1 ≤ limit) :
    (record_decision log agent_id parent_agent call_chain tool action params decision
       reason trace_id latency_ms approval_id policy_version timestamp).length ≤ 50
    ∧ (log.length = 50 →
        record_decision log agent_id parent_agent call_chain tool action params decision
          reason trace_id latency_ms approval_id policy_version timestamp =
        log.tail ++ [⟨timestamp, agent_id, parent_agent, call_chain, tool, action,
                      hashParams params, decision, some reason, policy_version, latency_ms,
                      trace_id, approval_id⟩])
    ∧ (log.length < 50 →
        record_decision log agent_id parent_agent call_chain tool action params decision
          reason trace_id latency_ms approval_id policy_version timestamp =
        log ++ [⟨timestamp, agent_id, parent_agent, call_chain, tool, action,
                 hashParams params, decision, some reason, policy_version, latency_ms,
                 trace_id, approval_id⟩])
    ∧ get_recent_decisions log limit =
        log.drop (log.length - min limit.toNat log.length)
    ∧ (get_recent_decisions log limit).length = min limit.toNat log.length := by
  have hslice : get_recent_decisions log limit =
      log.drop (log.length - min limit.toNat log.length) := by
    unfold get_recent_decisions pySliceSuffix
    rw [if_pos (by omega : -limit < 0)]
    congr 1
    omega
  refine ⟨?_, ?_, ?_, hslice, ?_⟩
  · unfold record_decision
    dsimp only
    split
    · simp [List.length_append]
      omega
    · rename_i h
      simp [List.length_append] at h ⊢
      omega
  · intro h50
    unfold record_decision
    dsimp only
    split
    · cases log with
      | nil => simp at h50
      | cons x xs => simp [List.cons_append]
    · rename_i h
      exfalso
      simp [List.length_append, h50] at h
  · intro hlt
    unfold record_decision
    dsimp only
    split
    · rename_i h
      exfalso
      simp [List.length_append] at h
      omega
    · rfl
  · rw [hslice, List.length_drop]
    omega

/-- Witness for the log bounds: on the one-record log, recent with limit
three returns the whole log, of length min three one. -/
theorem decision_log_bounds_witness :
    get_recent_decisions logOne 3 = logOne.drop (logOne.length - min (Int.toNat 3) logOne.length)
    ∧ (get_recent_decisions logOne 3).length = min (Int.toNat 3) logOne.length := by
  have h := decision_log_bounds logOne "a" none [] "payments" "create" [] "allow" "r"
    none 0 none 1 "t0" 3 (by decide) (by decide)
  exact ⟨h.2.2.2.1, h.2.2.2.2⟩

/-- Unfolding of the specification combinator over one more check. -/
theorem firstFailure_cons (e : Except String (Option String))
    (rest : List (Except String (Option String))) :
    firstFailure (e :: rest) = condStep e (fun _ => firstFailure rest) := by
  cases e with
  | error m => rfl
  | ok o =>
    cases o with
    | none => rfl
    | some r => rfl

/-- Claim C6: with a condition block present, the checks run in the fixed
order max_amount, currencies, folder_prefix, max_chain_depth,
forbidden_ancestors, required_ancestors and the reported reason is the
first failing check in that order; a parameter check whose field is absent
from params passes vacuously; and the max_amount check fails exactly when
the amount is present as a comparable number and strictly exceeds the
bound. -/
theorem condition_order_semantics (c : PolicyConditions) (params : List (String × JValue))
    (chain : List String) :
    condEvaluate c params (some chain) = condSpecOrdered c params chain
    ∧ (jget params "amount" = none → checkAmountCond c.max_amount params = Except.ok none)
    ∧ (jget params "currency" = none →
        checkCurrencyCond c.currencies params = Except.ok none)
    ∧ (jget params "path" = none → checkPathCond c.folder_prefix params = Except.ok none)
    ∧ (∀ m : ℚ, (∃ r, checkAmountCond (some m) params = Except.ok (some r)) ↔
        (∃ q : ℚ, jgetAmount params = some q ∧ m < q)) := by
  refine ⟨?_, ?_, ?_, ?_, ?_⟩
  · cases c with
    | mk ma cur fp mcd fa ra =>
      simp only [condSpecOrdered, firstFailure_cons]
      rfl
  · intro h
    cases hma : c.max_amount with
    | none => rfl
    | some m =>
      unfold checkAmountCond
      rw [h]
  · intro h
    cases hc : c.currencies with
    | none => rfl
    | some cs =>
      unfold checkCurrencyCond
      rw [h]
  · intro h
    cases hf : c.folder_prefix with
    | none => rfl
    | some pre =>
      unfold checkPathCond
      rw [h]
  · intro m
    constructor
    · rintro ⟨r, hr⟩
      cases hj : jget params "amount" with
      | none => simp [checkAmountCond, hj] at hr
      | some v =>
        cases v with
        | null => simp [checkAmountCond, hj] at hr
        | jb b =>
          simp only [checkAmountCond, hj] at hr
          refine ⟨if b then 1 else 0, by simp [jgetAmount, hj], ?_⟩
          by_cases hlt : m < (if b = true then (1 : ℚ) else 0)
          · exact hlt
          · rw [if_neg hlt] at hr
            simp at hr
        | jn q =>
          simp only [checkAmountCond, hj] at hr
          refine ⟨q, by simp [jgetAmount, hj], ?_⟩
          by_cases hlt : m < q
          · exact hlt
          · rw [if_neg hlt] at hr
            simp at hr
        | js s => simp [checkAmountCond, hj] at hr
        | jarr a => simp [checkAmountCond, hj] at hr
        | jobj o => simp [checkAmountCond, hj] at hr
    · rintro ⟨q, hq, hlt⟩
      cases hj : jget params "amount" with
      | none => simp [jgetAmount, hj] at hq
      | some v =>
        cases v with
        | null => simp [jgetAmount, hj] at hq
        | jb b =>
          have hqq : (if b = true then (1 : ℚ) else 0) = q := by
            simpa [jgetAmount, hj] using hq
          simp only [checkAmountCond, hj]
          rw [hqq, if_pos hlt]
          exact ⟨_, rfl⟩
        | jn q2 =>
          have hqq : q2 = q := by
            simpa [jgetAmount, hj] using hq
          simp only [checkAmountCond, hj]
          rw [hqq, if_pos hlt]
          exact ⟨_, rfl⟩
        | js s => simp [jgetAmount, hj] at hq
        | jarr a => simp [jgetAmount, hj] at hq
        | jobj o => simp [jgetAmount, hj] at hq

/-- Witness for the condition order theorem: on a block carrying only
max_amount and parameters without an amount, the evaluation agrees with
the ordered specification and the max_amount check passes vacuously. -/
theorem condition_order_semantics_witness :
    condEvaluate condMaxOnly paramsNoAmount (some []) =
      condSpecOrdered condMaxOnly paramsNoAmount []
    ∧ checkAmountCond condMaxOnly.max_amount paramsNoAmount = Except.ok none := by
  constructor
  · exact (condition_order_semantics condMaxOnly paramsNoAmount []).1
  · exact (condition_order_semantics condMaxOnly paramsNoAmount []).2.1 rfl

/-- The rule scan equals first-match selection: scanning the rules in
declaration order and stopping at the first whose tool matches and whose
action set contains the action is the same as processing the result of
find? with that predicate. -/
theorem evalRules_eq_applySelected (agent_id tool action : String)
    (params : List (String × JValue)) (chain : List String) (freshId : String)
    (rules : List PolicyRule) :
    evalRules agent_id tool action params chain freshId rules =
    applySelected agent_id tool action params chain freshId
      (rules.find? (fun r => r.tool == tool && r.actions.contains action)) := by
  induction rules with
  | nil => rfl
  | cons r rest ih =>
    by_cases h : (r.tool == tool && r.actions.contains action) = true
    · simp only [evalRules, List.find?, h, if_pos h]
      rfl
    · have h2 : (r.tool == tool && r.actions.contains action) = false := by
        cases hb : (r.tool == tool && r.actions.contains action) with
        | true => exact absurd hb h
        | false => rfl
      simp only [evalRules, List.find?, h2, if_neg h]
      exact ih

/-- Claim C7, amended: when the agent is absent the verdict is deny with
the capitalized reason Agent id not found in policies; when present, the
evaluation processes exactly the first rule whose tool matches and whose
action set contains the action, considering no later rules, and denies
with the capitalized reason Agent id not allowed to perform tool action
when no rule matches. The capitalization is forced by the
counterexample. -/
theorem evaluate_first_match (policies : List (String × PolicyDocument))
    (agent_id tool action : String) (params : List (String × JValue))
    (parent_agent : Option String) (freshId : String) :
    (findAgent policies agent_id = none →
      evaluate policies agent_id tool action params parent_agent freshId =
        Except.ok ("deny", "Agent " ++ agent_id ++ " not found in policies", none))
    ∧ (∀ ag, findAgent policies agent_id = some ag →
        evaluate policies agent_id tool action params parent_agent freshId =
          applySelected agent_id tool action params
            (match parent_agent with | some p => [p] | none => [])
            freshId
            (ag.allow.find? (fun r => r.tool == tool && r.actions.contains action))) := by
  constructor
  · intro h
    simp only [evaluate, h]
  · intro ag h
    simp only [evaluate, h]
    exact evalRules_eq_applySelected agent_id tool action params _ freshId ag.allow

/-- Witness for the first-match theorem: the unknown agent deny reason at
a concrete input, and on an agent carrying two rules for the same tool and
action the evaluation processes the first selected rule. -/
theorem evaluate_first_match_witness :
    evaluate [] "ghost" "payments" "create" [] none "f" =
      Except.ok ("deny", "Agent ghost not found in policies", none)
    ∧ evaluate [("p.yaml", twoRuleDoc)] "fin" "payments" "create" [] none "f" =
        applySelected "fin" "payments" "create" [] [] "f"
          (twoRuleAgent.allow.find?
            (fun r => r.tool == "payments" && r.actions.contains "create")) := by
  constructor
  · exact (evaluate_first_match [] "ghost" "payments" "create" [] none "f").1 rfl
  · exact (evaluate_first_match [("p.yaml", twoRuleDoc)] "fin" "payments" "create"
      [] none "f").2 twoRuleAgent rfl

/-- Nonemptiness of character data is preserved by appending on the
right. -/
theorem data_append_ne (x y : String) (hx : x.data ≠ []) : (x ++ y).data ≠ [] := by
  rw [String.data_append]
  intro h
  exact hx (List.append_eq_nil.mp h).1

/-- The max_amount check never raises on comparable parameters and any
reason it reports is non-empty. -/
theorem checkAmountCond_ok (ma : Option ℚ) (params : List (String × JValue))
    (h : amountComparable params = true) :
    ∃ o, checkAmountCond ma params = Except.ok o ∧ ∀ s, o = some s → s ≠ "" := by
  cases ma with
  | none => exact ⟨none, rfl, fun s hs => Option.noConfusion hs⟩
  | some m =>
    cases hj : jget params "amount" with
    | none =>
      exact ⟨none, by simp [checkAmountCond, hj], fun s hs => Option.noConfusion hs⟩
    | some v =>
      cases v with
      | null =>
        exact ⟨none, by simp [checkAmountCond, hj], fun s hs => Option.noConfusion hs⟩
      | jb b =>
        by_cases hlt : m < (if b = true then (1 : ℚ) else 0)
        · refine ⟨some ("Amount " ++ pyStr (.jb b) ++ " exceeds max_amount " ++ ratStr m),
            by simp [checkAmountCond, hj, hlt], ?_⟩
          intro s hs
          rw [← Option.some.inj hs]
          exact append_ne_empty _ _ (data_append_ne _ _ (data_append_ne _ _ (by simp)))
        · exact ⟨none, by simp [checkAmountCond, hj, hlt],
            fun s hs => Option.noConfusion hs⟩
      | jn q =>
        by_cases hlt : m < q
        · refine ⟨some ("Amount " ++ ratStr q ++ " exceeds max_amount " ++ ratStr m),
            by simp [checkAmountCond, hj, hlt], ?_⟩
          intro s hs
          rw [← Option.some.inj hs]
          exact append_ne_empty _ _ (data_append_ne _ _ (data_append_ne _ _ (by simp)))
        · exact ⟨none, by simp [checkAmountCond, hj, hlt],
            fun s hs => Option.noConfusion hs⟩
      | js str =>
        exfalso
        simp [amountComparable, hj] at h
      | jarr a =>
        exfalso
        simp [amountComparable, hj] at h
      | jobj o =>
        exfalso
        simp [amountComparable, hj] at h

/-- The currencies check never raises and any reason is non-empty. -/
theorem checkCurrencyCond_ok (cur : Option (List String))
    (params : List (String × JValue)) :
    ∃ o, checkCurrencyCond cur params = Except.ok o ∧ ∀ s, o = some s → s ≠ "" := by
  cases cur with
  | none => exact ⟨none, rfl, fun s hs => Option.noConfusion hs⟩
  | some cs =>
    cases hj : jget params "currency" with
    | none =>
      exact ⟨none, by simp [checkCurrencyCond, hj], fun s hs => Option.noConfusion hs⟩
    | some v =>
      cases v with
      | null =>
        exact ⟨none, by simp [checkCurrencyCond, hj], fun s hs => Option.noConfusion hs⟩
      | jb b =>
        refine ⟨some ("Currency " ++ pyStr (.jb b) ++ " not in allowed currencies " ++
          pyReprStrList cs), by simp [checkCurrencyCond, hj], ?_⟩
        intro s hs
        rw [← Option.some.inj hs]
        exact append_ne_empty _ _ (data_append_ne _ _ (data_append_ne _ _ (by simp)))
      | jn q =>
        refine ⟨some ("Currency " ++ pyStr (.jn q) ++ " not in allowed currencies " ++
          pyReprStrList cs), by simp [checkCurrencyCond, hj], ?_⟩
        intro s hs
        rw [← Option.some.inj hs]
        exact append_ne_empty _ _ (data_append_ne _ _ (data_append_ne _ _ (by simp)))
      | js str =>
        by_cases hm : cs.contains str = true
        · refine ⟨none, ?_, fun s hs => Option.noConfusion hs⟩
          simp [checkCurrencyCond, hj]
          simpa using hm
        · refine ⟨some ("Currency " ++ pyStr (.js str) ++ " not in allowed currencies " ++
            pyReprStrList cs), ?_, ?_⟩
          · simp [checkCurrencyCond, hj]
            simpa using hm
          · intro s hs
            rw [← Option.some.inj hs]
            exact append_ne_empty _ _ (data_append_ne _ _ (data_append_ne _ _ (by simp)))
      | jarr a =>
        refine ⟨some ("Currency " ++ pyStr (.jarr a) ++ " not in allowed currencies " ++
          pyReprStrList cs), by simp [checkCurrencyCond, hj], ?_⟩
        intro s hs
        rw [← Option.some.inj hs]
        exact append_ne_empty _ _ (data_append_ne _ _ (data_append_ne _ _ (by simp)))
      | jobj o =>
        refine ⟨some ("Currency " ++ pyStr (.jobj o) ++ " not in allowed currencies " ++
          pyReprStrList cs), by simp [checkCurrencyCond, hj], ?_⟩
        intro s hs
        rw [← Option.some.inj hs]
        exact append_ne_empty _ _ (data_append_ne _ _ (data_append_ne _ _ (by simp)))

/-- The folder_prefix check never raises on path-stringy parameters and
any reason is non-empty. -/
theorem checkPathCond_ok (fp : Option String) (params : List (String × JValue))
    (h : pathStringy params = true) :
    ∃ o, checkPathCond fp params = Except.ok o ∧ ∀ s, o = some s → s ≠ "" := by
  cases fp with
  | none => exact ⟨none, rfl, fun s hs => Option.noConfusion hs⟩
  | some pre =>
    cases hj : jget params "path" with
    | none =>
      exact ⟨none, by simp [checkPathCond, hj], fun s hs => Option.noConfusion hs⟩
    | some v =>
      cases v with
      | null =>
        exact ⟨none, by simp [checkPathCond, hj], fun s hs => Option.noConfusion hs⟩
      | js p =>
        by_cases hsw : p.startsWith pre = true
        · exact ⟨none, by simp [checkPathCond, hj, hsw], fun s hs => Option.noConfusion hs⟩
        · refine ⟨some ("Path " ++ p ++ " does not start with allowed prefix " ++ pre),
            by simp [checkPathCond, hj, hsw], ?_⟩
          intro s hs
          rw [← Option.some.inj hs]
          exact append_ne_empty _ _ (data_append_ne _ _ (data_append_ne _ _ (by simp)))
      | jb b =>
        exfalso
        simp [pathStringy, hj] at h
      | jn q =>
        exfalso
        simp [pathStringy, hj] at h
      | jarr a =>
        exfalso
        simp [pathStringy, hj] at h
      | jobj o =>
        exfalso
        simp [pathStringy, hj] at h

/-- The chain depth check never raises and any reason is non-empty. -/
theorem checkDepthCond_ok (mcd : Option ℤ) (call_chain : Option (List String)) :
    ∃ o, checkDepthCond mcd call_chain = Except.ok o ∧ ∀ s, o = some s → s ≠ "" := by
  cases call_chain with
  | none => exact ⟨none, by cases mcd <;> rfl, fun s hs => Option.noConfusion hs⟩
  | some ch =>
    cases mcd with
    | none => exact ⟨none, rfl, fun s hs => Option.noConfusion hs⟩
    | some d =>
      by_cases hlt : d < (ch.length : ℤ)
      · refine ⟨some ("Call chain depth " ++ toString ch.length ++
          " exceeds max_chain_depth " ++ toString d),
          by simp [checkDepthCond, hlt], ?_⟩
        intro s hs
        rw [← Option.some.inj hs]
        exact append_ne_empty _ _ (data_append_ne _ _ (data_append_ne _ _ (by simp)))
      · exact ⟨none, by simp [checkDepthCond, hlt], fun s hs => Option.noConfusion hs⟩

/-- The forbidden ancestors check never raises and any reason is
non-empty. -/
theorem checkForbiddenCond_ok (fa : Option (List String))
    (call_chain : Option (List String)) :
    ∃ o, checkForbiddenCond fa call_chain = Except.ok o ∧ ∀ s, o = some s → s ≠ "" := by
  cases call_chain with
  | none => exact ⟨none, by cases fa <;> rfl, fun s hs => Option.noConfusion hs⟩
  | some ch =>
    cases fa with
    | none => exact ⟨none, rfl, fun s hs => Option.noConfusion hs⟩
    | some fs =>
      cases hf : fs.find? (fun f => ch.contains f) with
      | none =>
        refine ⟨none, ?_, fun s hs => Option.noConfusion hs⟩
        unfold checkForbiddenCond
        dsimp only
        rw [hf]
      | some f =>
        refine ⟨some ("Forbidden ancestor \x27" ++ f ++ "\x27 found in call chain"),
          ?_, ?_⟩
        · unfold checkForbiddenCond
          dsimp only
          rw [hf]
        · intro s hs
          rw [← Option.some.inj hs]
          exact append_ne_empty _ _ (data_append_ne _ _ (by simp))

/-- The required ancestors check never raises and any reason is
non-empty. -/
theorem checkRequiredCond_ok (ra : Option (List String))
    (call_chain : Option (List String)) :
    ∃ o, checkRequiredCond ra call_chain = Except.ok o ∧ ∀ s, o = some s → s ≠ "" := by
  cases call_chain with
  | none => exact ⟨none, by cases ra <;> rfl, fun s hs => Option.noConfusion hs⟩
  | some ch =>
    cases ra with
    | none => exact ⟨none, rfl, fun s hs => Option.noConfusion hs⟩
    | some rs =>
      cases hf : rs.find? (fun r => !(ch.contains r)) with
      | none =>
        refine ⟨none, ?_, fun s hs => Option.noConfusion hs⟩
        unfold checkRequiredCond
        dsimp only
        rw [hf]
      | some r =>
        refine ⟨some ("Required ancestor \x27" ++ r ++ "\x27 not found in call chain"),
          ?_, ?_⟩
        · unfold checkRequiredCond
          dsimp only
          rw [hf]
        · intro s hs
          rw [← Option.some.inj hs]
          exact append_ne_empty _ _ (data_append_ne _ _ (by simp))

/-- A check that passed falls through to the rest of the body. -/
theorem condStep_none (k : Unit → Except String (Bool × Option String)) :
    condStep (Except.ok none) k = k () := rfl

/-- A check that failed ends the evaluation with its reason. -/
theorem condStep_some (s : String) (k : Unit → Except String (Bool × Option String)) :
    condStep (Except.ok (some s)) k = Except.ok (false, some s) := rfl

/-- Condition evaluation never raises on well-typed parameters, and on
denial the reason is present and non-empty. -/
theorem condEvaluate_ok (c : PolicyConditions) (params : List (String × JValue))
    (call_chain : Option (List String))
    (ha : amountComparable params = true) (hp : pathStringy params = true) :
    ∃ b o, condEvaluate c params call_chain = Except.ok (b, o)
      ∧ (b = false → ∃ s, o = some s ∧ s ≠ "") := by
  cases c with
  | mk ma cur fp mcd fa ra =>
    unfold condEvaluate
    dsimp only
    obtain ⟨o1, he1, hne1⟩ := checkAmountCond_ok ma params ha
    rw [he1]
    cases o1 with
    | some s1 =>
      rw [condStep_some]
      exact ⟨false, some s1, rfl, fun _ => ⟨s1, rfl, hne1 s1 rfl⟩⟩
    | none =>
      rw [condStep_none]
      obtain ⟨o2, he2, hne2⟩ := checkCurrencyCond_ok cur params
      rw [he2]
      cases o2 with
      | some s2 =>
        rw [condStep_some]
        exact ⟨false, some s2, rfl, fun _ => ⟨s2, rfl, hne2 s2 rfl⟩⟩
      | none =>
        rw [condStep_none]
        obtain ⟨o3, he3, hne3⟩ := checkPathCond_ok fp params hp
        rw [he3]
        cases o3 with
        | some s3 =>
          rw [condStep_some]
          exact ⟨false, some s3, rfl, fun _ => ⟨s3, rfl, hne3 s3 rfl⟩⟩
        | none =>
          rw [condStep_none]
          obtain ⟨o4, he4, hne4⟩ := checkDepthCond_ok mcd call_chain
          rw [he4]
          cases o4 with
          | some s4 =>
            rw [condStep_some]
            exact ⟨false, some s4, rfl, fun _ => ⟨s4, rfl, hne4 s4 rfl⟩⟩
          | none =>
            rw [condStep_none]
            obtain ⟨o5, he5, hne5⟩ := checkForbiddenCond_ok fa call_chain
            rw [he5]
            cases o5 with
            | some s5 =>
              rw [condStep_some]
              exact ⟨false, some s5, rfl, fun _ => ⟨s5, rfl, hne5 s5 rfl⟩⟩
            | none =>
              rw [condStep_none]
              obtain ⟨o6, he6, hne6⟩ := checkRequiredCond_ok ra call_chain
              rw [he6]
              cases o6 with
              | some s6 =>
                rw [condStep_some]
                exact ⟨false, some s6, rfl, fun _ => ⟨s6, rfl, hne6 s6 rfl⟩⟩
              | none =>
                rw [condStep_none]
                exact ⟨true, none, rfl, fun hfalse => Bool.noConfusion hfalse⟩

/-- Processing a selected rule never raises on well-typed parameters, the
verdict is one of the three allowed strings, and the reason is
non-empty. -/
theorem applyRule_ok (params : List (String × JValue)) (chain : List String)
    (freshId : String) (r : PolicyRule)
    (ha : amountComparable params = true) (hp : pathStringy params = true) :
    ∃ v rs a, applyRule params chain freshId r = Except.ok (v, rs, a)
      ∧ (v = "allow" ∨ v = "deny" ∨ v = "pending_approval") ∧ rs ≠ "" := by
  unfold applyRule
  cases hc : r.conditions with
  | none =>
    dsimp only
    by_cases hra : r.requires_approval = true
    · rw [if_pos hra]
      refine ⟨"pending_approval", _, some freshId, rfl, Or.inr (Or.inr rfl), ?_⟩
      exact append_ne_empty _ _ (data_append_ne _ _ (by simp))
    · rw [if_neg hra]
      exact ⟨"allow", "Allowed by policy", none, rfl, Or.inl rfl, by decide⟩
  | some c =>
    dsimp only
    obtain ⟨b, o, he, hbo⟩ := condEvaluate_ok c params (some chain) ha hp
    rw [he]
    dsimp only
    cases b with
    | true =>
      rw [if_pos rfl]
      by_cases hra : r.requires_approval = true
      · rw [if_pos hra]
        refine ⟨"pending_approval", _, some freshId, rfl, Or.inr (Or.inr rfl), ?_⟩
        exact append_ne_empty _ _ (data_append_ne _ _ (by simp))
      · rw [if_neg hra]
        exact ⟨"allow", "Allowed by policy", none, rfl, Or.inl rfl, by decide⟩
    | false =>
      rw [if_neg (by simp)]
      obtain ⟨s, hso, hsne⟩ := hbo rfl
      subst hso
      exact ⟨"deny", s, none, rfl, Or.inr (Or.inl rfl), hsne⟩

/-- The rule scan never raises on well-typed parameters, the verdict is
one of the three allowed strings, and the reason is non-empty. -/
theorem evalRules_ok (agent_id tool action : String) (params : List (String × JValue))
    (chain : List String) (freshId : String) (rules : List PolicyRule)
    (ha : amountComparable params = true) (hp : pathStringy params = true) :
    ∃ v rs a, evalRules agent_id tool action params chain freshId rules =
        Except.ok (v, rs, a)
      ∧ (v = "allow" ∨ v = "deny" ∨ v = "pending_approval") ∧ rs ≠ "" := by
  induction rules with
  | nil =>
    refine ⟨"deny", _, none, rfl, Or.inr (Or.inl rfl), ?_⟩
    exact append_ne_empty _ _ (data_append_ne _ _ (data_append_ne _ _ (data_append_ne _ _
      (data_append_ne _ _ (by simp)))))
  | cons r rest ih =>
    by_cases hm : (r.tool == tool && r.actions.contains action) = true
    · unfold evalRules
      rw [if_pos hm]
      exact applyRule_ok params chain freshId r ha hp
    · unfold evalRules
      rw [if_neg hm]
      exact ih

/-- Claim C5, amended: for every loaded policy set and request whose
parameters are well-typed for the condition checks, the evaluation
completes without raising, the verdict is one of allow, deny or
pending_approval, and the reason is a non-empty string. The restriction to
well-typed parameters is forced by the counterexample, where a string
amount makes the Python comparison raise a TypeError. -/
theorem evaluate_total (policies : List (String × PolicyDocument))
    (agent_id tool action : String) (params : List (String × JValue))
    (parent_agent : Option String) (freshId : String)
    (h : wellTypedParams params = true) :
    ∃ verdict reason aid,
      evaluate policies agent_id tool action params parent_agent freshId =
        Except.ok (verdict, reason, aid)
      ∧ (verdict = "allow" ∨ verdict = "deny" ∨ verdict = "pending_approval")
      ∧ reason ≠ "" := by
  have hab : amountComparable params = true ∧ pathStringy params = true := by
    unfold wellTypedParams at h
    simpa using h
  obtain ⟨ha, hp⟩ := hab
  cases hf : findAgent policies agent_id with
  | none =>
    refine ⟨"deny", "Agent " ++ agent_id ++ " not found in policies", none, ?_,
      Or.inr (Or.inl rfl), ?_⟩
    · simp only [evaluate, hf]
    · exact append_ne_empty _ _ (data_append_ne _ _ (by simp))
  | some ag =>
    have he : evaluate policies agent_id tool action params parent_agent freshId =
        evalRules agent_id tool action params
          (match parent_agent with | some p => [p] | none => []) freshId ag.allow := by
      simp only [evaluate, hf]
    rw [he]
    exact evalRules_ok agent_id tool action params _ freshId ag.allow ha hp

/-- Witness for the totality theorem: a concrete well-typed request
evaluates to a decision triple with a verdict in the allowed set and a
non-empty reason. -/
theorem evaluate_total_witness :
    ∃ verdict reason aid,
      evaluate [] "ghost" "payments" "create" [] none "f" =
        Except.ok (verdict, reason, aid)
      ∧ (verdict = "allow" ∨ verdict = "deny" ∨ verdict = "pending_approval")
      ∧ reason ≠ "" :=
  evaluate_total [] "ghost" "payments" "create" [] none "f" (by decide)

end Argus
